import Mathlib

/-!
Verification of the s3-tile-scrapper core pipeline

Shallow embedding of `src/tile-scrapper.py`: the Web-Mercator tile-address
math (`deg2num`), the tile planner (`calculate_tile_count`), the job
enumeration of the scheduler, the per-job fetch/exists/retry worker (`upload_tile`), the
thread-safe outcome counters (`update_stats`), and the benchmark estimator
(`benchmark_speed`).  Machine floats are modelled as exact reals; the
Python `int()` conversion is modelled as truncation toward zero (`pyInt`); the
store / HTTP environment of a job is an explicit `JobEnv`; the concurrent
scheduler is modelled by a fold over the job list (counter increments are
performed under a lock in the source and commute, so the aggregate counts
are order-independent).
-/

namespace TileScrapper

open Real

/-- The constant `MAX_RETRIES = 3` from the source configuration. -/
def MAX_RETRIES : ℕ := 3

/-- The constant `RETRY_DELAY = 1` (seconds) from the source configuration. -/
def RETRY_DELAY : ℕ := 1

/-- The Python `int()` conversion applied to a real number: truncation toward zero
(`int(v)` rounds down for nonnegative `v` and up for negative `v`). -/
noncomputable def pyInt (v : ℝ) : ℤ :=
  if 0 ≤ v then ⌊v⌋ else ⌈v⌉

/-- The function `deg2num(lat_deg, lon_deg, zoom)` from the source:
`lat_rad = radians(lat_deg)`, `n = 2.0 ** zoom`,
`xtile = int((lon_deg + 180.0) / 360.0 * n)`,
`ytile = int((1.0 - asinh(tan(lat_rad)) / pi) / 2.0 * n)`. -/
noncomputable def deg2num (lat_deg lon_deg : ℝ) (zoom : ℕ) : ℤ × ℤ :=
  (pyInt ((lon_deg + 180) / 360 * 2 ^ zoom),
   pyInt ((1 - Real.arsinh (Real.tan (lat_deg * Real.pi / 180)) / Real.pi) / 2 * 2 ^ zoom))

/-- The normalized per-zoom tile rectangle (inclusive bounds), as computed
identically in `calculate_tile_count` and in the scheduling loop of `main`. -/
structure Rect where
  startX : ℤ
  endX : ℤ
  startY : ℤ
  endY : ℤ

/-- Corner computation and min/max normalization shared by
`calculate_tile_count` and `main`:
`x_min, y_min = deg2num(max_lat, min_lon, z)`,
`x_max, y_max = deg2num(min_lat, max_lon, z)`, then
`start = min`, `end = max` componentwise.
A bounding box is `(min_lon, min_lat, max_lon, max_lat)` as in the source. -/
noncomputable def tileRect (bbox : ℝ × ℝ × ℝ × ℝ) (z : ℕ) : Rect :=
  let p1 := deg2num bbox.2.2.2 bbox.1 z
  let p2 := deg2num bbox.2.1 bbox.2.2.1 z
  ⟨min p1.1 p2.1, max p1.1 p2.1, min p1.2 p2.2, max p1.2 p2.2⟩

/-- The zoom enumeration `range(min_zoom, max_zoom + 1)` from the source. -/
def zoomList (min_zoom max_zoom : ℕ) : List ℕ :=
  (List.range (max_zoom + 1 - min_zoom)).map (fun i => min_zoom + i)

/-- The function `calculate_tile_count(min_zoom, max_zoom, bbox)` from the source:
returns `(total, details)` where each detail is
`(z, count, start_x, end_x, start_y, end_y)` with
`count = (end_x - start_x + 1) * (end_y - start_y + 1)` and `total` the sum
of the counts. -/
noncomputable def calculate_tile_count (min_zoom max_zoom : ℕ) (bbox : ℝ × ℝ × ℝ × ℝ) :
    ℤ × List (ℕ × ℤ × ℤ × ℤ × ℤ × ℤ) :=
  let details := (zoomList min_zoom max_zoom).map (fun z =>
    let r := tileRect bbox z
    (z, (r.endX - r.startX + 1) * (r.endY - r.startY + 1), r.startX, r.endX, r.startY, r.endY))
  ((details.map (fun d => d.2.1)).sum, details)

/-- The Python `range(a, b + 1)` over integers, as a list. -/
def intRange (a b : ℤ) : List ℤ :=
  (List.range (b + 1 - a).toNat).map (fun i : ℕ => a + (i : ℤ))

/-- The jobs submitted by the scheduling loop of `main`: for each zoom level of the
configured range, for each `x` in `range(start_x, end_x + 1)` and each `y` in
`range(start_y, end_y + 1)`, one `upload_tile(z, x, y)` job is submitted. -/
noncomputable def scheduledJobs (min_zoom max_zoom : ℕ) (bbox : ℝ × ℝ × ℝ × ℝ) :
    List (ℕ × ℤ × ℤ) :=
  (zoomList min_zoom max_zoom).flatMap (fun z =>
    let r := tileRect bbox z
    (intRange r.startX r.endX).flatMap (fun x =>
      (intRange r.startY r.endY).map (fun y => (z, x, y))))

/-- Result of the S3 `head_object` existence check, per the store contract:
the object exists, a clean 404 `ClientError` (object absent), or any other
`ClientError` (e.g. 403). -/
inductive HeadResult
  | exists_
  | notFound
  | otherError
deriving DecidableEq

/-- The function `check_exists(s3_key)` from the source: `True` when `head_object`
succeeds; a 404 `ClientError` returns `False`; any other `ClientError` is
logged as a warning and also returns `False`. -/
def check_exists : HeadResult → Bool
  | .exists_ => true
  | .notFound => false
  | .otherError => false

/-- Result of one fetch attempt in `upload_tile`: an HTTP response with a
status code, a body length and whether the subsequent S3 `put_object` (when
reached) succeeds; a `requests` timeout; or any other exception. -/
inductive AttemptResult
  | response (status : ℕ) (bodyLen : ℕ) (putOk : Bool)
  | timeout
  | exc

/-- The four terminal outcomes of a tile job, matching the string returns of
`upload_tile` and the four keys of the `stats` dictionary. -/
inductive Outcome
  | success
  | skipped
  | not_found
  | failed
deriving DecidableEq

/-- The external environment one `upload_tile` job runs against: what the
existence check of the store reports and what each fetch attempt returns. -/
structure JobEnv where
  head : HeadResult
  attempt : ℕ → AttemptResult

/-- The observable effects of one `upload_tile` job: its terminal outcome,
how many times the source was fetched (`requests.get` calls), how many
`put_object` calls were made, the `time.sleep` durations between consecutive
attempts, and how many times the progress bar was notified. -/
structure JobTrace where
  outcome : Outcome
  fetchCalls : ℕ
  putCalls : ℕ
  sleeps : List ℕ
  pbarUpdates : ℕ
deriving DecidableEq

/-- The retry loop of `upload_tile` (`for attempt in range(MAX_RETRIES)`),
modelled by structural recursion on the remaining attempt count `fuel`
(entered with `fuel = MAX_RETRIES`, so the sleep guard of the source,
`attempt < MAX_RETRIES - 1`, is `0 < fuel` after consuming this attempt):
* HTTP 200 with a non-empty body: `put_object`; on success return
  `"success"`; a `put_object` exception is caught by the generic handler and
  consumes the attempt;
* HTTP 200 with an empty body: logged, attempt consumed;
* HTTP 404: return `"not_found"` immediately, no retry;
* any other status, a timeout, or any exception: logged, attempt consumed;
* between consumed attempts the source sleeps `RETRY_DELAY`; after the loop
  it returns `"failed"`. -/
def fetchLoop (env : JobEnv) : ℕ → ℕ → JobTrace
  | _, 0 => ⟨.failed, 0, 0, [], 1⟩
  | i, fuel + 1 =>
    let retry : ℕ → JobTrace := fun puts =>
      let rest := fetchLoop env (i + 1) fuel
      ⟨rest.outcome, rest.fetchCalls + 1, rest.putCalls + puts,
        (if 0 < fuel then [RETRY_DELAY] else []) ++ rest.sleeps, rest.pbarUpdates⟩
    match env.attempt i with
    | .response 200 bodyLen putOk =>
        if 0 < bodyLen then
          if putOk then ⟨.success, 1, 1, [], 1⟩ else retry 1
        else retry 0
    | .response 404 _ _ => ⟨.not_found, 1, 0, [], 1⟩
    | .response _ _ _ => retry 0
    | .timeout => retry 0
    | .exc => retry 0

/-- The function `upload_tile(z, x, y, pbar)` from the source, as a function
of the environment of the job: if `check_exists` reports the key present, the job is skipped
with no fetch; otherwise the retry loop runs with `MAX_RETRIES` attempts.
Every path updates the progress bar exactly once. -/
def upload_tile (env : JobEnv) : JobTrace :=
  if check_exists env.head then ⟨.skipped, 0, 0, [], 1⟩
  else fetchLoop env 0 MAX_RETRIES

/-- The four outcome counters of the global `stats` dictionary. -/
structure Stats where
  success : ℕ
  skipped : ℕ
  failed : ℕ
  not_found : ℕ
deriving DecidableEq

/-- The initial `stats` dictionary: all four counters zero. -/
def initStats : Stats := ⟨0, 0, 0, 0⟩

/-- The function `update_stats(key)` from the source: increments exactly the named
counter (the source performs this under `stats_lock`). -/
def update_stats (s : Stats) : Outcome → Stats
  | .success => { s with success := s.success + 1 }
  | .skipped => { s with skipped := s.skipped + 1 }
  | .failed => { s with failed := s.failed + 1 }
  | .not_found => { s with not_found := s.not_found + 1 }

/-- The sum of the four counters. -/
def statsTotal (s : Stats) : ℕ :=
  s.success + s.skipped + s.failed + s.not_found

/-- A whole scheduler run over a list of jobs: each job runs `upload_tile`
and reports its single outcome to `update_stats`.  The increments happen
under a lock in the source and commute, so the aggregate counts reached
when `concurrent.futures.wait` returns equal this sequential fold. -/
def runJobs (jobs : List JobEnv) : Stats :=
  jobs.foldl (fun s env => update_stats s (upload_tile env).outcome) initStats

/-- The function `benchmark_speed` from the source, as a function of the sample round
trips: each sample either completes its measured round trip in some elapsed
time (`some t` — the elapsed time is recorded whatever the HTTP status, only
status 200 additionally writes to the store) or raises an exception and is
skipped (`none`).  With no recorded time the function returns the `None`
sentinel; otherwise the average recorded time. -/
def benchmark_speed (samples : List (Option ℚ)) : Option ℚ :=
  let times := samples.filterMap id
  if times = [] then none
  else some (times.sum / times.length)

/-- The report of the caller in `main`: `if avg_time:` prints the benchmark
results, `else` prints the warning that speed could not be benchmarked.
Python truthiness: `None` and `0.0` are falsy. -/
def benchWarningPrinted (avg_time : Option ℚ) : Bool :=
  match avg_time with
  | none => true
  | some t => decide (t = 0)

/-! ## Helper lemmas about `pyInt` -/

theorem pyInt_of_nonneg {v : ℝ} (h : 0 ≤ v) : pyInt v = ⌊v⌋ := by
  simp [pyInt, h]

theorem pyInt_mono : Monotone pyInt := by
  intro a b hab
  unfold pyInt
  by_cases ha : 0 ≤ a
  · have hb : 0 ≤ b := ha.trans hab
    simp only [ha, hb, if_true]
    exact Int.floor_le_floor hab
  · by_cases hb : 0 ≤ b
    · simp only [ha, hb, if_true, if_false]
      have h1 : ⌈a⌉ ≤ 0 := Int.ceil_le.mpr (by simpa using le_of_not_le ha)
      have h2 : 0 ≤ ⌊b⌋ := Int.floor_nonneg.mpr hb
      omega
    · simp only [ha, hb, if_false]
      exact Int.ceil_le_ceil hab

theorem pyInt_bounds {v : ℝ} {n : ℤ} (h0 : 0 ≤ v) (h1 : v < n) :
    0 ≤ pyInt v ∧ pyInt v < n := by
  rw [pyInt_of_nonneg h0]
  exact ⟨Int.floor_nonneg.mpr h0, Int.floor_lt.mpr h1⟩

/-! ## Numeric bounds for the Mercator latitude limit

The essential analytic fact behind the tile-coordinate range invariant:
`tan (85°) < sinh π`, so that `|arsinh (tan lat_rad)| < π` for `|lat| < 85°`
(the Web-Mercator cutoff is `≈ 85.051°`). -/

theorem exp_three_gt : (20 : ℝ) < Real.exp 3 := by
  have h1 : (2.7182818283 : ℝ) < Real.exp 1 := Real.exp_one_gt_d9
  have h3 : Real.exp 1 ^ 3 = Real.exp 3 := by
    rw [← Real.exp_nat_mul]; norm_num
  have hA : (2.7182818283 : ℝ) ^ 3 ≤ Real.exp 1 ^ 3 := by
    gcongr
  calc (20 : ℝ) < 2.7182818283 ^ 3 := by norm_num
  _ ≤ Real.exp 1 ^ 3 := hA
  _ = Real.exp 3 := h3

theorem exp_pi_gt : (23 : ℝ) < Real.exp Real.pi := by
  have h1 : (2.7182818283 : ℝ) < Real.exp 1 := Real.exp_one_gt_d9
  have h6 : (3.141592 : ℝ) < Real.pi := Real.pi_gt_d6
  have hsmall : (1.070796 : ℝ) ≤ Real.exp 0.070796 := by
    linarith [Real.add_one_le_exp (0.070796 : ℝ)]
  have hA : (2.7182818283 : ℝ) ^ 3 ≤ Real.exp 1 ^ 3 := by
    gcongr
  have hB : (1.070796 : ℝ) ^ 2 ≤ Real.exp 0.070796 ^ 2 := by
    gcongr
  have hmul : (2.7182818283 : ℝ) ^ 3 * 1.070796 ^ 2 ≤
      Real.exp 1 ^ 3 * Real.exp 0.070796 ^ 2 :=
    mul_le_mul hA hB (by norm_num) (by positivity)
  have hkey : Real.exp 1 ^ 3 * Real.exp 0.070796 ^ 2 = Real.exp 3.141592 := by
    rw [← Real.exp_nat_mul, ← Real.exp_nat_mul, ← Real.exp_add]
    norm_num
  have hnum : (23 : ℝ) < 2.7182818283 ^ 3 * 1.070796 ^ 2 := by norm_num
  have h23 : (23 : ℝ) < Real.exp 3.141592 := by
    rw [← hkey]; linarith
  exact h23.trans (Real.exp_lt_exp.mpr h6)

theorem exp_neg_pi_lt : Real.exp (-Real.pi) < 0.05 := by
  have h3 : (3 : ℝ) < Real.pi := Real.pi_gt_three
  have hmono : Real.exp (-Real.pi) < Real.exp (-3) :=
    Real.exp_lt_exp.mpr (by linarith)
  have h20 : (20 : ℝ) < Real.exp 3 := exp_three_gt
  have hinv : Real.exp (-3) = (Real.exp 3)⁻¹ := Real.exp_neg 3
  have hpos : (0 : ℝ) < Real.exp 3 := Real.exp_pos 3
  have : (Real.exp 3)⁻¹ < 0.05 := by
    rw [inv_lt_iff_one_lt_mul₀ hpos]
    linarith
  linarith [hmono, hinv ▸ this]

theorem sinh_pi_gt : (11.47 : ℝ) < Real.sinh Real.pi := by
  rw [Real.sinh_eq]
  linarith [exp_pi_gt, exp_neg_pi_lt]

theorem tan_85deg_lt : Real.tan (17 * Real.pi / 36) < Real.sinh Real.pi := by
  have hπ : (0 : ℝ) < Real.pi := Real.pi_pos
  have h36 : (0 : ℝ) < Real.pi / 36 := by positivity
  have h36h : Real.pi / 36 < Real.pi / 2 := by linarith
  have htan : Real.pi / 36 < Real.tan (Real.pi / 36) := Real.lt_tan h36 h36h
  have htp : (0 : ℝ) < Real.tan (Real.pi / 36) := h36.trans htan
  have heq : Real.tan (17 * Real.pi / 36) = (Real.tan (Real.pi / 36))⁻¹ := by
    rw [show 17 * Real.pi / 36 = Real.pi / 2 - Real.pi / 36 by ring,
      Real.tan_pi_div_two_sub]
  rw [heq]
  have hinv : (Real.tan (Real.pi / 36))⁻¹ ≤ (Real.pi / 36)⁻¹ :=
    inv_anti₀ h36 htan.le
  have h2 : (Real.pi / 36 : ℝ)⁻¹ < 11.47 := by
    rw [inv_div, div_lt_iff₀ hπ]
    nlinarith [Real.pi_gt_d6]
  linarith [sinh_pi_gt]

theorem arsinh_tan_lt_pi {lat : ℝ} (h1 : -85 < lat) (h2 : lat < 85) :
    -Real.pi < Real.arsinh (Real.tan (lat * Real.pi / 180)) ∧
      Real.arsinh (Real.tan (lat * Real.pi / 180)) < Real.pi := by
  have hπ : (0 : ℝ) < Real.pi := Real.pi_pos
  have hpos : (0 : ℝ) < Real.pi / 180 := by positivity
  have hu : lat * Real.pi / 180 < 17 * Real.pi / 36 := by
    have h := mul_lt_mul_of_pos_right h2 hpos
    calc lat * Real.pi / 180 = lat * (Real.pi / 180) := by ring
    _ < 85 * (Real.pi / 180) := h
    _ = 17 * Real.pi / 36 := by ring
  have hl : -(17 * Real.pi / 36) < lat * Real.pi / 180 := by
    have h := mul_lt_mul_of_pos_right h1 hpos
    calc -(17 * Real.pi / 36) = -85 * (Real.pi / 180) := by ring
    _ < lat * (Real.pi / 180) := h
    _ = lat * Real.pi / 180 := by ring
  have h17h : 17 * Real.pi / 36 < Real.pi / 2 := by linarith
  have htu : Real.tan (lat * Real.pi / 180) < Real.tan (17 * Real.pi / 36) :=
    Real.tan_lt_tan_of_lt_of_lt_pi_div_two (by linarith) h17h hu
  have htl : Real.tan (-(17 * Real.pi / 36)) < Real.tan (lat * Real.pi / 180) :=
    Real.tan_lt_tan_of_lt_of_lt_pi_div_two (by linarith) (by linarith) hl
  rw [Real.tan_neg] at htl
  have hs := tan_85deg_lt
  constructor
  · have h' : Real.sinh (-Real.pi) < Real.tan (lat * Real.pi / 180) := by
      rw [Real.sinh_neg]; linarith
    have harsinh := Real.arsinh_lt_arsinh.mpr h'
    rwa [Real.arsinh_sinh] at harsinh
  · have h' : Real.tan (lat * Real.pi / 180) < Real.sinh Real.pi := htu.trans hs
    have harsinh := Real.arsinh_lt_arsinh.mpr h'
    rwa [Real.arsinh_sinh] at harsinh

/-- The fail-fast contract that §4.1 of the specification prescribes for
`toTile`: the floor-based slippy-map formula, with the input-domain
violation at the poles (where `tan` diverges, e.g. `lat = 90°`) failing fast
— modelled as `none`, the `DomainError` — instead of returning a
coordinate.  Stated from the words of the specification, to be compared
with `deg2num` from the source. -/
noncomputable def toTileSpec (lat lon : ℝ) (zoom : ℕ) : Option (ℤ × ℤ) :=
  if -90 < lat ∧ lat < 90 then
    some (⌊(lon + 180) / 360 * 2 ^ zoom⌋,
      ⌊(1 - Real.arsinh (Real.tan (lat * Real.pi / 180)) / Real.pi) / 2 * 2 ^ zoom⌋)
  else none

/-! ## Claims about `deg2num` -/

/-- C1: for every input with `|lat| < 85°` and `lon` in the longitude
fundamental domain `[-180, 180)`, `deg2num` (a pure function, hence
deterministic) returns a pair `(x, y)` with `0 ≤ x < 2^zoom` and
`0 ≤ y < 2^zoom`.  (At `lon = 180`, the antimeridian representative
equivalent to `-180`, the formula yields `x = 2^zoom`, which is why the
valid longitude range is the half-open fundamental domain.) -/
theorem deg2num_range (lat lon : ℝ) (zoom : ℕ)
    (hlat₁ : -85 < lat) (hlat₂ : lat < 85)
    (hlon₁ : -180 ≤ lon) (hlon₂ : lon < 180) :
    0 ≤ (deg2num lat lon zoom).1 ∧ (deg2num lat lon zoom).1 < 2 ^ zoom ∧
      0 ≤ (deg2num lat lon zoom).2 ∧ (deg2num lat lon zoom).2 < 2 ^ zoom := by
  simp only [deg2num]
  have hn : (0 : ℝ) < 2 ^ zoom := by positivity
  have hcast : ((2 ^ zoom : ℤ) : ℝ) = 2 ^ zoom := by push_cast; ring
  have hx0 : 0 ≤ (lon + 180) / 360 * 2 ^ zoom := by
    apply mul_nonneg _ hn.le
    apply div_nonneg _ (by norm_num)
    linarith
  have hx1 : (lon + 180) / 360 * 2 ^ zoom < ((2 ^ zoom : ℤ) : ℝ) := by
    rw [hcast]
    have h : (lon + 180) / 360 < 1 := by
      rw [div_lt_one (by norm_num)]; linarith
    nlinarith
  obtain ⟨ha1, ha2⟩ := arsinh_tan_lt_pi hlat₁ hlat₂
  have hπ : (0 : ℝ) < Real.pi := Real.pi_pos
  have hq1 : Real.arsinh (Real.tan (lat * Real.pi / 180)) / Real.pi < 1 :=
    (div_lt_one hπ).mpr ha2
  have hq2 : -1 < Real.arsinh (Real.tan (lat * Real.pi / 180)) / Real.pi := by
    rw [lt_div_iff₀ hπ]; linarith
  have hy0 : 0 ≤ (1 - Real.arsinh (Real.tan (lat * Real.pi / 180)) / Real.pi) / 2 * 2 ^ zoom := by
    apply mul_nonneg _ hn.le
    linarith
  have hy1 : (1 - Real.arsinh (Real.tan (lat * Real.pi / 180)) / Real.pi) / 2 * 2 ^ zoom <
      ((2 ^ zoom : ℤ) : ℝ) := by
    rw [hcast]
    have h : (1 - Real.arsinh (Real.tan (lat * Real.pi / 180)) / Real.pi) / 2 < 1 := by
      linarith
    nlinarith
  obtain ⟨hxa, hxb⟩ := pyInt_bounds hx0 hx1
  obtain ⟨hya, hyb⟩ := pyInt_bounds hy0 hy1
  exact ⟨hxa, hxb, hya, hyb⟩

/-- Witness for C1 at `lat = 0`, `lon = 0`, `zoom = 3`. -/
theorem deg2num_range_witness :
    (-85 : ℝ) < 0 ∧ (0 : ℝ) < 85 ∧ (-180 : ℝ) ≤ 0 ∧ (0 : ℝ) < 180 ∧
      (0 ≤ (deg2num 0 0 3).1 ∧ (deg2num 0 0 3).1 < 2 ^ 3 ∧
        0 ≤ (deg2num 0 0 3).2 ∧ (deg2num 0 0 3).2 < 2 ^ 3) :=
  ⟨by norm_num, by norm_num, by norm_num, by norm_num,
    deg2num_range 0 0 3 (by norm_num) (by norm_num) (by norm_num) (by norm_num)⟩

/-- C2 counterexample: `deg2num` uses the Python `int()` conversion, which truncates
toward zero, not `floor`.  At `lat = 0`, `lon = -181`, `zoom = 0` the
pre-conversion x value is `-1/360`: the code returns `x = 0` while the
floor-based reference formula gives `-1`. -/
theorem deg2num_not_floor :
    (deg2num 0 (-181) 0).1 ≠ ⌊((-181 : ℝ) + 180) / 360 * 2 ^ (0 : ℕ)⌋ := by
  have harg : ((-181 : ℝ) + 180) / 360 * 2 ^ (0 : ℕ) = -(1 / 360) := by norm_num
  have hL : (deg2num 0 (-181) 0).1 = 0 := by
    show pyInt (((-181 : ℝ) + 180) / 360 * 2 ^ (0 : ℕ)) = 0
    rw [harg, pyInt, if_neg (by norm_num)]
    rw [Int.ceil_eq_iff]
    constructor <;> norm_num
  have hR : ⌊((-181 : ℝ) + 180) / 360 * 2 ^ (0 : ℕ)⌋ = -1 := by
    rw [harg, Int.floor_eq_iff]
    constructor <;> norm_num
  rw [hL, hR]
  norm_num

/-- C2 amended: `deg2num` equals the floor-based Web-Mercator reference
formula exactly on inputs whose pre-conversion values are nonnegative; on
negative pre-conversion values the Python `int()` conversion truncates toward zero and
differs from `floor`. -/
theorem deg2num_eq_floor_of_nonneg (lat lon : ℝ) (zoom : ℕ)
    (hx : 0 ≤ (lon + 180) / 360 * 2 ^ zoom)
    (hy : 0 ≤ (1 - Real.arsinh (Real.tan (lat * Real.pi / 180)) / Real.pi) / 2 * 2 ^ zoom) :
    deg2num lat lon zoom =
      (⌊(lon + 180) / 360 * 2 ^ zoom⌋,
       ⌊(1 - Real.arsinh (Real.tan (lat * Real.pi / 180)) / Real.pi) / 2 * 2 ^ zoom⌋) := by
  simp only [deg2num, pyInt_of_nonneg hx, pyInt_of_nonneg hy]

/-- Witness for the amended C2 at `lat = 0`, `lon = 0`, `zoom = 0`. -/
theorem deg2num_eq_floor_of_nonneg_witness :
    0 ≤ ((0 : ℝ) + 180) / 360 * 2 ^ (0 : ℕ) ∧
      0 ≤ (1 - Real.arsinh (Real.tan ((0 : ℝ) * Real.pi / 180)) / Real.pi) / 2 * 2 ^ (0 : ℕ) ∧
      deg2num 0 0 0 =
        (⌊((0 : ℝ) + 180) / 360 * 2 ^ (0 : ℕ)⌋,
         ⌊(1 - Real.arsinh (Real.tan ((0 : ℝ) * Real.pi / 180)) / Real.pi) / 2 *
            2 ^ (0 : ℕ)⌋) := by
  have hx0 : 0 ≤ ((0 : ℝ) + 180) / 360 * 2 ^ (0 : ℕ) := by norm_num
  have hy0 : 0 ≤ (1 - Real.arsinh (Real.tan ((0 : ℝ) * Real.pi / 180)) / Real.pi) / 2 *
      2 ^ (0 : ℕ) := by
    rw [show (0 : ℝ) * Real.pi / 180 = 0 by ring, Real.tan_zero, Real.arsinh_zero]
    norm_num
  exact ⟨hx0, hy0, deg2num_eq_floor_of_nonneg 0 0 0 hx0 hy0⟩

/-- C8 counterexample: at `lat = 90°` the fail-fast contract `toTileSpec`
of the specification reports the `DomainError` (`none`), but `deg2num`
performs no input validation: it silently returns a coordinate pair (its x
component is `1`, computed from `lon` as usual). -/
theorem deg2num_no_domain_error :
    toTileSpec 90 0 1 = none ∧ (deg2num 90 0 1).1 = 1 := by
  constructor
  · rw [toTileSpec, if_neg]
    rintro ⟨-, h⟩
    exact lt_irrefl _ h
  · show pyInt (((0 : ℝ) + 180) / 360 * 2 ^ (1 : ℕ)) = 1
    rw [show ((0 : ℝ) + 180) / 360 * 2 ^ (1 : ℕ) = 1 by norm_num,
      pyInt_of_nonneg (by norm_num)]
    exact Int.floor_one

/-- C8 amended: `deg2num` performs no domain check and has no failure mode
at all — it is total, and on domain-violating inputs such as `lat = 90°` it
silently returns a (garbage) coordinate instead of the `DomainError` the
specification prescribes.  On the open valid domain `|lat| < 90`, wherever
the pre-conversion values are nonnegative, it agrees with the fail-fast
floor-based contract `toTileSpec`. -/
theorem deg2num_refines_toTileSpec (lat lon : ℝ) (zoom : ℕ)
    (h1 : -90 < lat) (h2 : lat < 90)
    (hx : 0 ≤ (lon + 180) / 360 * 2 ^ zoom)
    (hy : 0 ≤ (1 - Real.arsinh (Real.tan (lat * Real.pi / 180)) / Real.pi) / 2 * 2 ^ zoom) :
    toTileSpec lat lon zoom = some (deg2num lat lon zoom) := by
  rw [toTileSpec, if_pos ⟨h1, h2⟩]
  simp only [deg2num, pyInt_of_nonneg hx, pyInt_of_nonneg hy]

/-- Witness for the amended C8 at `lat = 0`, `lon = 0`, `zoom = 0`. -/
theorem deg2num_refines_toTileSpec_witness :
    (-90 : ℝ) < 0 ∧ (0 : ℝ) < 90 ∧
      toTileSpec 0 0 0 = some (deg2num 0 0 0) := by
  have hx0 : 0 ≤ ((0 : ℝ) + 180) / 360 * 2 ^ (0 : ℕ) := by norm_num
  have hy0 : 0 ≤ (1 - Real.arsinh (Real.tan ((0 : ℝ) * Real.pi / 180)) / Real.pi) / 2 *
      2 ^ (0 : ℕ) := by
    rw [show (0 : ℝ) * Real.pi / 180 = 0 by ring, Real.tan_zero, Real.arsinh_zero]
    norm_num
  exact ⟨by norm_num, by norm_num,
    deg2num_refines_toTileSpec 0 0 0 (by norm_num) (by norm_num) hx0 hy0⟩

/-- C10: at every fixed zoom, the x component of `deg2num` is monotone
non-decreasing in longitude (fixed latitude), and the y component is
monotone non-increasing in latitude over the open domain `(-90°, 90°)`
where the formula is defined (fixed longitude) — the property that makes
the min/max corner normalization of the planner cover exactly the tiles between
the two corners. -/
theorem deg2num_monotone :
    (∀ (zoom : ℕ) (lat lon lon' : ℝ), lon ≤ lon' →
        (deg2num lat lon zoom).1 ≤ (deg2num lat lon' zoom).1) ∧
    (∀ (zoom : ℕ) (lon lat lat' : ℝ), -90 < lat → lat ≤ lat' → lat' < 90 →
        (deg2num lat' lon zoom).2 ≤ (deg2num lat lon zoom).2) := by
  constructor
  · intro zoom lat lon lon' h
    apply pyInt_mono
    have hn : (0 : ℝ) ≤ 2 ^ zoom := by positivity
    apply mul_le_mul_of_nonneg_right _ hn
    exact (div_le_div_iff_of_pos_right (by norm_num)).mpr (by linarith)
  · intro zoom lon lat lat' h1 h12 h2
    apply pyInt_mono
    have hπ : (0 : ℝ) < Real.pi := Real.pi_pos
    have hpos : (0 : ℝ) < Real.pi / 180 := by positivity
    have hθ : lat * Real.pi / 180 ≤ lat' * Real.pi / 180 := by
      have h := mul_le_mul_of_nonneg_right h12 hpos.le
      calc lat * Real.pi / 180 = lat * (Real.pi / 180) := by ring
      _ ≤ lat' * (Real.pi / 180) := h
      _ = lat' * Real.pi / 180 := by ring
    have hbl : -(Real.pi / 2) < lat * Real.pi / 180 := by
      have h := mul_lt_mul_of_pos_right h1 hpos
      calc -(Real.pi / 2) = -90 * (Real.pi / 180) := by ring
      _ < lat * (Real.pi / 180) := h
      _ = lat * Real.pi / 180 := by ring
    have hbu : lat' * Real.pi / 180 < Real.pi / 2 := by
      have h := mul_lt_mul_of_pos_right h2 hpos
      calc lat' * Real.pi / 180 = lat' * (Real.pi / 180) := by ring
      _ < 90 * (Real.pi / 180) := h
      _ = Real.pi / 2 := by ring
    have htan : Real.tan (lat * Real.pi / 180) ≤ Real.tan (lat' * Real.pi / 180) := by
      rcases eq_or_lt_of_le hθ with heq | hlt
      · rw [heq]
      · exact (Real.tan_lt_tan_of_lt_of_lt_pi_div_two hbl hbu hlt).le
    have hars := Real.arsinh_le_arsinh.mpr htan
    have hn : (0 : ℝ) ≤ 2 ^ zoom := by positivity
    apply mul_le_mul_of_nonneg_right _ hn
    have hd : Real.arsinh (Real.tan (lat * Real.pi / 180)) / Real.pi ≤
        Real.arsinh (Real.tan (lat' * Real.pi / 180)) / Real.pi :=
      (div_le_div_iff_of_pos_right hπ).mpr hars
    linarith

/-- Witness for C10 at concrete inputs. -/
theorem deg2num_monotone_witness :
    (deg2num 0 0 1).1 ≤ (deg2num 0 10 1).1 ∧
      (deg2num 10 0 1).2 ≤ (deg2num 0 0 1).2 :=
  ⟨deg2num_monotone.1 1 0 0 10 (by norm_num),
   deg2num_monotone.2 1 0 0 10 (by norm_num) (by norm_num) (by norm_num)⟩

/-! ## Claims about the fetch worker and the stats aggregator -/

theorem statsTotal_update (s : Stats) (o : Outcome) :
    statsTotal (update_stats s o) = statsTotal s + 1 := by
  cases o <;> simp [update_stats, statsTotal] <;> omega

theorem runJobs_total_aux (jobs : List JobEnv) (s : Stats) :
    statsTotal (jobs.foldl (fun s env => update_stats s (upload_tile env).outcome) s) =
      statsTotal s + jobs.length := by
  induction jobs generalizing s with
  | nil => simp
  | cons e t ih =>
    rw [List.foldl_cons, ih, statsTotal_update, List.length_cons]
    omega

/-- C3: every `upload_tile` execution terminates in exactly one of the four
outcomes — its result type — and reports it to `update_stats` exactly once,
so after the scheduler completes (modelled as the fold `runJobs`, valid
because the locked counter increments commute), the four counters sum to
the number of jobs submitted, whatever the mix of existence-check results,
HTTP statuses, timeouts and exceptions in the job environments. -/
theorem stats_sum_eq_total_jobs (jobs : List JobEnv) :
    (runJobs jobs).success + (runJobs jobs).skipped + (runJobs jobs).not_found +
      (runJobs jobs).failed = jobs.length := by
  have h := runJobs_total_aux jobs initStats
  simp only [runJobs, statsTotal, initStats] at h ⊢
  omega

/-- C5: a job whose tile is absent from the store and whose every fetch
attempt times out ends `Failed`; the source is fetched exactly
`MAX_RETRIES = 3` times, and a `time.sleep` of exactly `RETRY_DELAY`
(hence at least the configured retry delay) separates each pair of
consecutive fetches. -/
theorem upload_tile_all_timeouts (env : JobEnv)
    (hhead : env.head = .notFound)
    (htime : ∀ i, env.attempt i = .timeout) :
    (upload_tile env).outcome = .failed ∧
      (upload_tile env).fetchCalls = 3 ∧
      (upload_tile env).sleeps = [RETRY_DELAY, RETRY_DELAY] ∧
      ∀ d ∈ (upload_tile env).sleeps, RETRY_DELAY ≤ d := by
  have htrace : upload_tile env = ⟨.failed, 3, 0, [RETRY_DELAY, RETRY_DELAY], 1⟩ := by
    simp [upload_tile, hhead, check_exists, MAX_RETRIES, fetchLoop, htime]
  rw [htrace]
  refine ⟨rfl, rfl, rfl, ?_⟩
  intro d hd
  simp only [List.mem_cons, List.not_mem_nil, or_false] at hd
  rcases hd with h | h <;> exact h.ge

/-- Witness for C5: the always-timeout environment. -/
theorem upload_tile_all_timeouts_witness :
    (upload_tile ⟨.notFound, fun _ => .timeout⟩).outcome = .failed ∧
      (upload_tile ⟨.notFound, fun _ => .timeout⟩).fetchCalls = 3 ∧
      (upload_tile ⟨.notFound, fun _ => .timeout⟩).sleeps = [RETRY_DELAY, RETRY_DELAY] ∧
      ∀ d ∈ (upload_tile ⟨.notFound, fun _ => .timeout⟩).sleeps, RETRY_DELAY ≤ d :=
  upload_tile_all_timeouts ⟨.notFound, fun _ => .timeout⟩ rfl (fun _ => rfl)

/-- C6: a job whose tile is absent from the store and whose fetch returns
HTTP 404 ends `NotFound` immediately: exactly one fetch, no retry, no sleep,
no store write, and `update_stats` counts it in the `not_found` bucket,
distinct from `failed`. -/
theorem upload_tile_404 (env : JobEnv) (L : ℕ) (p : Bool)
    (hhead : env.head = .notFound)
    (h404 : env.attempt 0 = .response 404 L p) :
    (upload_tile env).outcome = .not_found ∧
      (upload_tile env).fetchCalls = 1 ∧
      (upload_tile env).putCalls = 0 ∧
      (upload_tile env).sleeps = [] ∧
      ∀ s : Stats, update_stats s .not_found =
        ⟨s.success, s.skipped, s.failed, s.not_found + 1⟩ := by
  have htrace : upload_tile env = ⟨.not_found, 1, 0, [], 1⟩ := by
    simp [upload_tile, hhead, check_exists, MAX_RETRIES, fetchLoop, h404]
  rw [htrace]
  exact ⟨rfl, rfl, rfl, rfl, fun s => rfl⟩

/-- Witness for C6: an environment always answering HTTP 404. -/
theorem upload_tile_404_witness :
    (upload_tile ⟨.notFound, fun _ => .response 404 0 true⟩).outcome = .not_found ∧
      (upload_tile ⟨.notFound, fun _ => .response 404 0 true⟩).fetchCalls = 1 ∧
      (upload_tile ⟨.notFound, fun _ => .response 404 0 true⟩).putCalls = 0 ∧
      (upload_tile ⟨.notFound, fun _ => .response 404 0 true⟩).sleeps = [] ∧
      ∀ s : Stats, update_stats s .not_found =
        ⟨s.success, s.skipped, s.failed, s.not_found + 1⟩ :=
  upload_tile_404 ⟨.notFound, fun _ => .response 404 0 true⟩ 0 true rfl rfl

/-- C7: a job whose store existence check reports "exists" is `Skipped`:
the source is never fetched, no store write happens, no sleep happens, and
the only effects of the job are one increment of the `skipped` counter and one
progress-observer notification. -/
theorem upload_tile_skipped (env : JobEnv) (hhead : env.head = .exists_) :
    upload_tile env = ⟨.skipped, 0, 0, [], 1⟩ ∧
      ∀ s : Stats, update_stats s .skipped =
        ⟨s.success, s.skipped + 1, s.failed, s.not_found⟩ := by
  constructor
  · simp [upload_tile, hhead, check_exists]
  · intro s; rfl

/-- Witness for C7: an environment whose existence check reports present. -/
theorem upload_tile_skipped_witness :
    upload_tile ⟨.exists_, fun _ => .timeout⟩ = ⟨.skipped, 0, 0, [], 1⟩ ∧
      ∀ s : Stats, update_stats s .skipped =
        ⟨s.success, s.skipped + 1, s.failed, s.not_found⟩ :=
  upload_tile_skipped ⟨.exists_, fun _ => .timeout⟩ rfl

/-! ## Claim about the benchmark estimator -/

/-- C9: when every benchmark sample raises (no round trip completes),
`benchmark_speed` returns the `None` sentinel and `main` prints the
could-not-benchmark warning instead of failing; and a numeric average is
returned exactly when at least one sample round trip completes. -/
theorem benchmark_speed_none_iff (samples : List (Option ℚ)) :
    ((∀ s ∈ samples, s = none) →
      benchmark_speed samples = none ∧
        benchWarningPrinted (benchmark_speed samples) = true) ∧
    ((benchmark_speed samples).isSome ↔ ∃ s ∈ samples, s.isSome) := by
  have hiff : samples.filterMap id = [] ↔ ∀ s ∈ samples, s = none := by
    rw [List.filterMap_eq_nil_iff]
    simp
  constructor
  · intro h
    have hnil : samples.filterMap id = [] := hiff.mpr h
    constructor
    · simp [benchmark_speed, hnil]
    · simp [benchmark_speed, hnil, benchWarningPrinted]
  · by_cases hnil : samples.filterMap id = []
    · simp only [benchmark_speed, hnil, if_true]
      simp only [Option.isSome_none, Bool.false_eq_true, false_iff]
      rintro ⟨s, hs, hsome⟩
      rw [hiff.mp hnil s hs] at hsome
      cases hsome
    · simp only [benchmark_speed, hnil, if_false]
      simp only [Option.isSome_some, true_iff]
      have : ¬∀ s ∈ samples, s = none := fun h => hnil (hiff.mpr h)
      push_neg at this
      obtain ⟨s, hs, hne⟩ := this
      exact ⟨s, hs, Option.isSome_iff_ne_none.mpr hne⟩

/-- Witness for C9: the all-failing sample list. -/
theorem benchmark_speed_none_iff_witness :
    benchmark_speed [none] = none ∧
      benchWarningPrinted (benchmark_speed [none]) = true :=
  (benchmark_speed_none_iff [none]).1 (by intro s hs; simpa using hs)

/-! ## Claim about the planner / scheduler agreement -/

theorem length_intRange (a b : ℤ) : (intRange a b).length = (b + 1 - a).toNat := by
  rw [intRange, List.length_map, List.length_range]

theorem tileRect_start_le_end (bbox : ℝ × ℝ × ℝ × ℝ) (z : ℕ) :
    (tileRect bbox z).startX ≤ (tileRect bbox z).endX ∧
      (tileRect bbox z).startY ≤ (tileRect bbox z).endY :=
  ⟨min_le_max, min_le_max⟩

theorem rect_count_eq_toNat (r : Rect) (hx : r.startX ≤ r.endX) (hy : r.startY ≤ r.endY) :
    (r.endX - r.startX + 1) * (r.endY - r.startY + 1) =
      (((r.endX + 1 - r.startX).toNat * (r.endY + 1 - r.startY).toNat : ℕ) : ℤ) := by
  have h1 : ((r.endX + 1 - r.startX).toNat : ℤ) = r.endX + 1 - r.startX :=
    Int.toNat_of_nonneg (by omega)
  have h2 : ((r.endY + 1 - r.startY).toNat : ℤ) = r.endY + 1 - r.startY :=
    Int.toNat_of_nonneg (by omega)
  push_cast [h1, h2]
  ring

theorem scheduled_zoom_length (sx ex sy ey : ℤ) (z : ℕ) :
    ((intRange sx ex).flatMap (fun x =>
      (intRange sy ey).map (fun y => (z, x, y)))).length =
      (ex + 1 - sx).toNat * (ey + 1 - sy).toNat := by
  rw [List.length_flatMap]
  have h1 : (List.map (List.length ∘ fun x =>
      (intRange sy ey).map (fun y => (z, x, y))) (intRange sx ex)).sum
      = (List.map (fun _ : ℤ => (ey + 1 - sy).toNat) (intRange sx ex)).sum := by
    apply congrArg
    apply List.map_congr_left
    intro x _
    simp [length_intRange]
  rw [h1, List.map_const', List.sum_replicate, smul_eq_mul, length_intRange]

theorem scheduled_length_eq (bbox : ℝ × ℝ × ℝ × ℝ) (zs : List ℕ) :
    ((zs.flatMap (fun z =>
        (intRange (tileRect bbox z).startX (tileRect bbox z).endX).flatMap (fun x =>
          (intRange (tileRect bbox z).startY (tileRect bbox z).endY).map
            (fun y => (z, x, y))))).length : ℤ) =
      (zs.map (fun z =>
        ((tileRect bbox z).endX - (tileRect bbox z).startX + 1) *
          ((tileRect bbox z).endY - (tileRect bbox z).startY + 1))).sum := by
  induction zs with
  | nil => simp
  | cons z t ih =>
    rw [List.flatMap_cons, List.length_append, List.map_cons, List.sum_cons]
    push_cast
    rw [ih, scheduled_zoom_length]
    have hz := tileRect_start_le_end bbox z
    rw [rect_count_eq_toNat (tileRect bbox z) hz.1 hz.2]

/-- C4: for every bounding box and zoom range, the total returned by
`calculate_tile_count` equals the number of jobs the scheduling loop of
`main` submits, and both equal the sum over the zoom range of
`(endX - startX + 1) * (endY - startY + 1)` for the normalized corner
rectangle of each zoom level.  (This holds for every zoom range; in
particular whenever `min_zoom ≤ max_zoom`.) -/
theorem planner_scheduler_agree (min_zoom max_zoom : ℕ) (bbox : ℝ × ℝ × ℝ × ℝ) :
    (calculate_tile_count min_zoom max_zoom bbox).1 =
      ((scheduledJobs min_zoom max_zoom bbox).length : ℤ) ∧
    (calculate_tile_count min_zoom max_zoom bbox).1 =
      ((zoomList min_zoom max_zoom).map (fun z =>
        ((tileRect bbox z).endX - (tileRect bbox z).startX + 1) *
          ((tileRect bbox z).endY - (tileRect bbox z).startY + 1))).sum := by
  have hform : (calculate_tile_count min_zoom max_zoom bbox).1 =
      ((zoomList min_zoom max_zoom).map (fun z =>
        ((tileRect bbox z).endX - (tileRect bbox z).startX + 1) *
          ((tileRect bbox z).endY - (tileRect bbox z).startY + 1))).sum := by
    simp only [calculate_tile_count, List.map_map]
    rfl
  refine ⟨?_, hform⟩
  rw [hform]
  exact (scheduled_length_eq bbox (zoomList min_zoom max_zoom)).symm

end TileScrapper
